import Mathlib

/-!
Verification development for the LIMRA content-acquisition pipeline
(`limra_search_agent.py`, `sub_agents.py`).

Strings are modelled as lists of characters (`Str`); Python's `in`
substring test, `str.lower()`, and f-string concatenation are embedded
as executable functions on `Str`.  Each component of the pipeline that
the claims talk about (login-status validation, document filtering,
deduplication, section-link classification, year extraction, and the
download cascade) is translated from the source into a pure function,
and the claims are settled as theorems about those functions.
-/

/-- Strings are modelled as lists of characters. -/
abbrev Str := List Char

/-- Embedding of Python `str.lower()` (character-wise lowering). -/
def lowerStr (s : Str) : Str := s.map Char.toLower

/-- Boolean test that `pre` is a leading run of `s`. -/
def isLeadingRun : Str → Str → Bool
  | [], _ => true
  | _ :: _, [] => false
  | a :: as, b :: bs => a = b && isLeadingRun as bs

/-- Embedding of Python membership `needle in hay` on strings. -/
def containsSub (needle : Str) : Str → Bool
  | [] => needle.isEmpty
  | c :: rest => isLeadingRun needle (c :: rest) || containsSub needle rest

/-- Embedding of Python `s.endswith(suf)`. -/
def endsWithStr (s suf : Str) : Bool := isLeadingRun suf.reverse s.reverse

/-- A discovered document record: `title`, `url`, `type`, `description`,
and an optional `year` (absent for freshly discovered records). -/
structure DocR where
  title : Str
  url : Str
  dtype : Str
  descr : Str
  year : Option Int
deriving DecidableEq, Repr

/-- Python truthiness of an optional integer (`None` and `0` are falsy). -/
def truthyI : Option Int → Bool
  | none => false
  | some n => if n = 0 then false else true

/-- The lower-bound exclusion `start_year and doc_year < start_year` from
`_filter_documents`. -/
def boundLow (sy : Option Int) (yv : Int) : Bool :=
  match sy with
  | none => false
  | some s => if s = 0 then false else decide (yv < s)

/-- The upper-bound exclusion `end_year and doc_year > end_year` from
`_filter_documents`. -/
def boundHigh (ey : Option Int) (yv : Int) : Bool :=
  match ey with
  | none => false
  | some e => if e = 0 then false else decide (e < yv)

/-- Year predicate of `_filter_documents`: a document with a falsy year
(absent, or zero by Python truthiness) always passes; otherwise the two
bound checks apply. -/
def yearOk (sy ey : Option Int) (y : Option Int) : Bool :=
  match y with
  | none => true
  | some yv =>
    if yv = 0 then true
    else !(boundLow sy yv) && !(boundHigh ey yv)

/-- Keyword predicate of `_filter_documents`: any keyword is a
case-insensitive substring of `title + " " + description + " " + type +
" " + url`. -/
def kwMatch (d : DocR) (keywords : List Str) : Bool :=
  let searchText :=
    lowerStr d.title ++ [' '] ++ lowerStr d.descr ++ [' ']
      ++ lowerStr d.dtype ++ [' '] ++ lowerStr d.url
  keywords.any (fun kw => containsSub (lowerStr kw) searchText)

/-- Per-document predicate of the main loop of `_filter_documents`. -/
def docPass (keywords : List Str) (sy ey : Option Int) (d : DocR) : Bool :=
  (if keywords.isEmpty then true else kwMatch d keywords) && yearOk sy ey d.year

/-- Embedding of `LimraSearchAgent._filter_documents`: keyword + year
filtering with the drop-keyword fallback when the combined filter comes
back empty on a non-empty input. -/
def filter_documents (docs : List DocR) (keywords : List Str)
    (sy ey : Option Int) : List DocR :=
  if !keywords.isEmpty && (docs.filter (docPass keywords sy ey)).isEmpty
      && !docs.isEmpty then
    docs.filter (fun d => yearOk sy ey d.year)
  else docs.filter (docPass keywords sy ey)

/-- Sample record carrying year 2022. -/
def doc2022 : DocR := ⟨"a".toList, "u1".toList, "Article".toList, [], some 2022⟩

/-- Sample record with no year. -/
def docNoYear : DocR := ⟨"b".toList, "u2".toList, "Article".toList, [], none⟩

/-- Sample record carrying year 2024. -/
def doc2024 : DocR := ⟨"c".toList, "u3".toList, "Article".toList, [], some 2024⟩

/-- Sample record carrying the (Python-falsy) year 0. -/
def docYear0 : DocR := ⟨"z".toList, "u4".toList, "Article".toList, [], some 0⟩

example :
    filter_documents [doc2022, docNoYear, doc2024] [] (some 2023) none
      = [docNoYear, doc2024] := by decide

example : filter_documents [docYear0] [] (some 2023) none = [docYear0] := by
  decide

/-- Helper: a document passing the combined predicate passes the year
predicate. -/
theorem docPass_implies_yearOk {kws : List Str} {sy ey : Option Int}
    {d : DocR} (h : docPass kws sy ey d = true) : yearOk sy ey d.year = true := by
  unfold docPass at h
  exact (Bool.and_eq_true _ _ |>.mp h).2

/-- Helper: filtering an already docPass-filtered list again changes
nothing. -/
theorem filter_docPass_self (docs : List DocR) (kws : List Str)
    (sy ey : Option Int) :
    (docs.filter (docPass kws sy ey)).filter (docPass kws sy ey)
      = docs.filter (docPass kws sy ey) := by
  rw [List.filter_filter]
  exact List.filter_congr (fun x _ => by cases docPass kws sy ey x <;> rfl)

/-- Helper: applying the combined predicate after the year-only filter is
the same as applying the combined predicate directly. -/
theorem filter_docPass_after_yearOk (docs : List DocR) (kws : List Str)
    (sy ey : Option Int) :
    (docs.filter (fun d => yearOk sy ey d.year)).filter (docPass kws sy ey)
      = docs.filter (docPass kws sy ey) := by
  rw [List.filter_filter]
  refine List.filter_congr (fun x _ => ?_)
  unfold docPass
  cases (if kws.isEmpty then true else kwMatch x kws) <;>
    cases yearOk sy ey x.year <;> rfl

/-- Helper: the year-only filter is idempotent. -/
theorem filter_yearOk_self (docs : List DocR) (sy ey : Option Int) :
    (docs.filter (fun d => yearOk sy ey d.year)).filter
        (fun d => yearOk sy ey d.year)
      = docs.filter (fun d => yearOk sy ey d.year) := by
  rw [List.filter_filter]
  exact List.filter_congr (fun x _ => by cases yearOk sy ey x.year <;> rfl)

/-- C8: `_filter_documents` is idempotent — applying it twice with the
same keyword list and year bounds returns the same output as applying it
once, including when the drop-keyword fallback branch is taken. -/
theorem C8_filter_documents_idempotent (docs : List DocR) (kws : List Str)
    (sy ey : Option Int) :
    filter_documents (filter_documents docs kws sy ey) kws sy ey
      = filter_documents docs kws sy ey := by
  by_cases hk : kws.isEmpty = true
  · have h1 : ∀ X : List DocR,
        filter_documents X kws sy ey = X.filter (docPass kws sy ey) := by
      intro X; unfold filter_documents; simp [hk]
    rw [h1, h1]
    exact filter_docPass_self docs kws sy ey
  · have hk' : kws.isEmpty = false := by
      cases h : kws.isEmpty
      · rfl
      · exact absurd h hk
    by_cases hd : docs.isEmpty = true
    · have hnil : docs = [] := List.isEmpty_iff.mp hd
      subst hnil
      simp [filter_documents]
    · have hd' : docs.isEmpty = false := by
        cases h : docs.isEmpty
        · rfl
        · exact absurd h hd
      by_cases hF : (docs.filter (docPass kws sy ey)).isEmpty = true
      · -- the fallback branch is taken on the first application
        have hFnil : docs.filter (docPass kws sy ey) = [] :=
          List.isEmpty_iff.mp hF
        have hinner : filter_documents docs kws sy ey
            = docs.filter (fun d => yearOk sy ey d.year) := by
          unfold filter_documents
          simp [hk', hF, hd']
        rw [hinner]
        have hBP : (docs.filter (fun d => yearOk sy ey d.year)).filter
            (docPass kws sy ey) = [] := by
          rw [filter_docPass_after_yearOk]; exact hFnil
        by_cases hB : (docs.filter (fun d => yearOk sy ey d.year)).isEmpty = true
        · have hBnil := List.isEmpty_iff.mp hB
          unfold filter_documents
          rw [hBnil]
          simp
        · have hB' : (docs.filter (fun d => yearOk sy ey d.year)).isEmpty = false := by
            cases h : (docs.filter (fun d => yearOk sy ey d.year)).isEmpty
            · rfl
            · exact absurd h hB
          unfold filter_documents
          rw [hBP]
          simp only [hk', hB', List.isEmpty_nil, Bool.not_false, Bool.and_true,
            Bool.true_and, Bool.not_true, Bool.and_false]
          rw [if_pos trivial]
          exact filter_yearOk_self docs sy ey
      · -- first application keeps the combined filter
        have hF' : (docs.filter (docPass kws sy ey)).isEmpty = false := by
          cases h : (docs.filter (docPass kws sy ey)).isEmpty
          · rfl
          · exact absurd h hF
        have hinner : filter_documents docs kws sy ey
            = docs.filter (docPass kws sy ey) := by
          unfold filter_documents
          simp [hF']
        rw [hinner]
        unfold filter_documents
        rw [filter_docPass_self]
        simp [hF']

/-- C3: on a non-empty input and non-empty keyword list, if no record
matches any keyword then `_filter_documents` re-applies only the year
predicate to the original input; the result is non-empty whenever the
year predicate alone passes at least one record. -/
theorem C3_drop_keyword_fallback (docs : List DocR) (kws : List Str)
    (sy ey : Option Int) (h1 : docs ≠ []) (h2 : kws ≠ [])
    (h3 : ∀ d ∈ docs, kwMatch d kws = false) :
    filter_documents docs kws sy ey
        = docs.filter (fun d => yearOk sy ey d.year) ∧
      ((∃ d ∈ docs, yearOk sy ey d.year = true) →
        filter_documents docs kws sy ey ≠ []) := by
  have hk' : kws.isEmpty = false := by
    cases h : kws.isEmpty
    · rfl
    · exact absurd (List.isEmpty_iff.mp h) h2
  have hd' : docs.isEmpty = false := by
    cases h : docs.isEmpty
    · rfl
    · exact absurd (List.isEmpty_iff.mp h) h1
  have hFnil : docs.filter (docPass kws sy ey) = [] := by
    rw [List.filter_eq_nil_iff]
    intro d hd hpass
    have := docPass_implies_yearOk hpass
    unfold docPass at hpass
    rw [hk'] at hpass
    have hkm := (Bool.and_eq_true _ _ |>.mp hpass).1
    rw [h3 d hd] at hkm
    exact Bool.false_ne_true hkm
  have hmain : filter_documents docs kws sy ey
      = docs.filter (fun d => yearOk sy ey d.year) := by
    unfold filter_documents
    simp [hk', hFnil, hd']
  refine ⟨hmain, fun ⟨d, hd, hy⟩ => ?_⟩
  rw [hmain]
  exact List.ne_nil_of_mem (List.mem_filter.mpr ⟨hd, hy⟩)

/-- Witness for C3 at a concrete input: one keyword that matches nothing,
one record passing the year predicate. -/
theorem C3_drop_keyword_fallback_witness :
    filter_documents [docNoYear] ["zzz".toList] none none ≠ [] :=
  (C3_drop_keyword_fallback [docNoYear] ["zzz".toList] none none
      (by decide) (by decide) (by decide)).2
    ⟨docNoYear, by decide, by decide⟩

/-- C4 counterexample: the claim says a record with a present year is
excluded exactly when its year is below the given start year, but the
code treats the present year 0 as falsy and keeps the record even though
0 is below the start year 2023. -/
theorem C4_year_predicate_counterexample :
    filter_documents [docYear0] [] (some 2023) none = [docYear0] ∧
      docYear0.year = some 0 ∧ (0 : Int) < 2023 := by
  refine ⟨by decide, by decide, by decide⟩


/-- Helper: characterization of the lower-bound exclusion. -/
theorem boundLow_eq_true_iff (sy : Option Int) (yv : Int) :
    boundLow sy yv = true ↔ ∃ s, sy = some s ∧ ¬(s = 0) ∧ yv < s := by
  cases sy with
  | none => simp [boundLow]
  | some s =>
    by_cases h : s = 0
    · simp [boundLow, h]
    · constructor
      · intro hb
        refine ⟨s, rfl, h, ?_⟩
        simpa [boundLow, h] using hb
      · rintro ⟨s', hs, h0, hlt⟩
        injection hs with hs'
        subst hs'
        simpa [boundLow, h] using hlt

/-- Helper: characterization of the upper-bound exclusion. -/
theorem boundHigh_eq_true_iff (ey : Option Int) (yv : Int) :
    boundHigh ey yv = true ↔ ∃ e, ey = some e ∧ ¬(e = 0) ∧ e < yv := by
  cases ey with
  | none => simp [boundHigh]
  | some e =>
    by_cases h : e = 0
    · simp [boundHigh, h]
    · constructor
      · intro hb
        refine ⟨e, rfl, h, ?_⟩
        simpa [boundHigh, h] using hb
      · rintro ⟨e', he, h0, hlt⟩
        injection he with he'
        subst he'
        simpa [boundHigh, h] using hlt

/-- C4 (amended): a record whose year is absent — or whose year is 0,
which Python truthiness treats as absent — always passes the year
predicate; a record with a non-zero present year is excluded exactly
when a non-zero start bound exceeds it or a non-zero end bound is below
it (a bound equal to 0 imposes no constraint); the claim's concrete
scenario `filter([2022, None, 2024], startYear := 2023)` returns exactly
the year-absent record and the 2024 record. -/
theorem C4_year_predicate_amended :
    (∀ sy ey : Option Int, yearOk sy ey none = true) ∧
      (∀ sy ey : Option Int, yearOk sy ey (some 0) = true) ∧
      (∀ (sy ey : Option Int) (yv : Int), ¬(yv = 0) →
        (yearOk sy ey (some yv) = false ↔
          ((∃ s, sy = some s ∧ ¬(s = 0) ∧ yv < s) ∨
            (∃ e, ey = some e ∧ ¬(e = 0) ∧ e < yv)))) ∧
      filter_documents [doc2022, docNoYear, doc2024] [] (some 2023) none
        = [docNoYear, doc2024] := by
  refine ⟨fun sy ey => rfl, fun sy ey => by simp [yearOk], ?_, by decide⟩
  intro sy ey yv hyv
  have hmain : yearOk sy ey (some yv) = false ↔
      (boundLow sy yv = true ∨ boundHigh ey yv = true) := by
    have hred : yearOk sy ey (some yv)
        = if yv = 0 then true else !boundLow sy yv && !boundHigh ey yv := rfl
    rw [hred, if_neg hyv]
    cases boundLow sy yv <;> cases boundHigh ey yv <;> simp
  rw [hmain, boundLow_eq_true_iff, boundHigh_eq_true_iff]

/-- Witness for C4 (amended): the exclusion characterization applied at
year 2022 against start bound 2023. -/
theorem C4_year_predicate_amended_witness :
    yearOk (some 2023) none (some 2022) = false :=
  (C4_year_predicate_amended.2.2.1 (some 2023) none 2022 (by decide)).mpr
    (Or.inl ⟨2023, rfl, by decide, by decide⟩)

/-- Logout-affordance texts checked by `_check_if_logged_in` (English and
Korean). -/
def logout_indicators : List Str :=
  ["logout".toList, "log out".toList, "sign out".toList, "signout".toList,
    "로그아웃".toList, "로그 아웃".toList, "나가기".toList]

/-- Login-affordance markup fragments checked by `_check_if_logged_in`. -/
def login_indicators : List Str :=
  ["href=\"/login\"".toList, "href=\"/log-in\"".toList,
    "href=\"/en/log-in\"".toList, ">log in<".toList, ">login<".toList,
    ">sign in<".toList, ">로그인<".toList]

/-- Account/profile markers checked by `_check_if_logged_in`. -/
def account_indicators : List Str :=
  ["my account".toList, "myaccount".toList, "my profile".toList,
    "myprofile".toList, "welcome,".toList, "내 계정".toList, "프로필".toList]

/-- Authentication-flavored cookie-name fragments checked by
`_check_if_logged_in`. -/
def auth_cookie_names : List Str :=
  ["auth".toList, "token".toList, "session".toList, "user".toList,
    ".aspnet".toList]

/-- The URL marker `login`. -/
def loginTok : Str := "login".toList

/-- The URL marker `log-in`. -/
def logDashInTok : Str := "log-in".toList

/-- The site-domain marker `limra.com`. -/
def limraTok : Str := "limra.com".toList

/-- Embedding of `LimraSearchAgent._check_if_logged_in`: the pipeline's
layered login-status heuristic over a page snapshot (current URL, page
content, cookie names). -/
def check_if_logged_in (url content : Str) (cookieNames : List Str) : Bool :=
  let urlL := lowerStr url
  let contentL := lowerStr content
  if containsSub loginTok urlL || containsSub logDashInTok urlL then
    false
  else if logout_indicators.any (fun i => containsSub i contentL) then true
  else if login_indicators.any (fun i => containsSub i contentL) then false
  else if account_indicators.any (fun i => containsSub i contentL) then true
  else if (cookieNames.any (fun c =>
        auth_cookie_names.any (fun a => containsSub a (lowerStr c))))
      && (containsSub limraTok url && !containsSub loginTok urlL) then
    true
  else false

/-- Logout texts checked by `SessionManagerAgent._check_login_status`. -/
def sub_logout_indicators : List Str :=
  ["logout".toList, "log out".toList, "sign out".toList, "signout".toList]

/-- Login texts checked by `SessionManagerAgent._check_login_status`. -/
def sub_login_indicators : List Str :=
  ["login".toList, "log in".toList, "sign in".toList, "signin".toList]

/-- Embedding of `SessionManagerAgent._check_login_status`: the
background session-health poller's login check over the page content,
URL, and the previously stored shared login flag. -/
def check_login_status (pageClosed : Bool) (content url : Str)
    (sharedFlag : Bool) : Bool :=
  if pageClosed then false
  else
    let contentL := lowerStr content
    if sub_logout_indicators.any (fun i => containsSub i contentL) then true
    else if sub_login_indicators.any (fun i => containsSub i contentL) then
      false
    else if containsSub loginTok (lowerStr url) then false
    else sharedFlag

/-- Concrete snapshot URL: a limra page that is not a login path. -/
def urlHome : Str := "https://www.limra.com/en/home".toList

/-- Concrete snapshot URL: the limra login page. -/
def urlLogin : Str := "https://www.limra.com/en/login".toList

/-- Concrete page content containing a logout affordance. -/
def contentLogout : Str := "click to logout".toList

example : check_if_logged_in urlHome contentLogout [] = true := by decide

example : check_if_logged_in urlLogin contentLogout [] = false := by decide

example : check_login_status false contentLogout urlLogin false = true := by
  decide

/-- Concrete snapshot URL outside the limra domain, not a login path. -/
def urlOther : Str := "https://example.com/home".toList

/-- Concrete page content matching no affordance marker. -/
def contentPlain : Str := "welcome page".toList

/-- Concrete cookie set containing an authentication-flavored name. -/
def cookiesSession : List Str := ["session_id".toList]

/-- C2 counterexample: a snapshot whose URL is not a login path, whose
content matches no rule, and which carries an authentication-flavored
cookie.  The claim's rule (e) would accept it, but the code's cookie rule
additionally requires the URL to contain `limra.com`, so the result is
not-authenticated. -/
theorem C2_counterexample :
    check_if_logged_in urlOther contentPlain cookiesSession = false ∧
      (containsSub loginTok (lowerStr urlOther)
        || containsSub logDashInTok (lowerStr urlOther)) = false ∧
      logout_indicators.any
        (fun i => containsSub i (lowerStr contentPlain)) = false ∧
      login_indicators.any
        (fun i => containsSub i (lowerStr contentPlain)) = false ∧
      account_indicators.any
        (fun i => containsSub i (lowerStr contentPlain)) = false ∧
      cookiesSession.any (fun c =>
        auth_cookie_names.any (fun a => containsSub a (lowerStr c))) = true := by
  decide

/-- C2 (amended): the login-status heuristics fire in the fixed order
(a) login-path URL rejects, (b) logout text accepts, (c) login markup
rejects, (d) account markers accept, (e) an authentication-flavored
cookie accepts provided the URL also contains the site domain
`limra.com` (the URL cannot be a login path at that point, rule (a)
having not fired); if no rule matches the result is not-authenticated.
In particular a non-login-path page containing both logout text and
login markup is classified authenticated. -/
theorem C2_login_heuristic_order_amended (url content : Str)
    (ck : List Str) :
    ((containsSub loginTok (lowerStr url)
        || containsSub logDashInTok (lowerStr url)) = true →
      check_if_logged_in url content ck = false) ∧
    ((containsSub loginTok (lowerStr url)
        || containsSub logDashInTok (lowerStr url)) = false →
      logout_indicators.any (fun i => containsSub i (lowerStr content)) = true →
      check_if_logged_in url content ck = true) ∧
    ((containsSub loginTok (lowerStr url)
        || containsSub logDashInTok (lowerStr url)) = false →
      logout_indicators.any (fun i => containsSub i (lowerStr content)) = false →
      login_indicators.any (fun i => containsSub i (lowerStr content)) = true →
      check_if_logged_in url content ck = false) ∧
    ((containsSub loginTok (lowerStr url)
        || containsSub logDashInTok (lowerStr url)) = false →
      logout_indicators.any (fun i => containsSub i (lowerStr content)) = false →
      login_indicators.any (fun i => containsSub i (lowerStr content)) = false →
      account_indicators.any (fun i => containsSub i (lowerStr content)) = true →
      check_if_logged_in url content ck = true) ∧
    ((containsSub loginTok (lowerStr url)
        || containsSub logDashInTok (lowerStr url)) = false →
      logout_indicators.any (fun i => containsSub i (lowerStr content)) = false →
      login_indicators.any (fun i => containsSub i (lowerStr content)) = false →
      account_indicators.any (fun i => containsSub i (lowerStr content)) = false →
      (ck.any (fun c =>
        auth_cookie_names.any (fun a => containsSub a (lowerStr c)))) = true →
      containsSub limraTok url = true →
      check_if_logged_in url content ck = true) ∧
    ((containsSub loginTok (lowerStr url)
        || containsSub logDashInTok (lowerStr url)) = false →
      logout_indicators.any (fun i => containsSub i (lowerStr content)) = false →
      login_indicators.any (fun i => containsSub i (lowerStr content)) = false →
      account_indicators.any (fun i => containsSub i (lowerStr content)) = false →
      (ck.any (fun c =>
        auth_cookie_names.any (fun a => containsSub a (lowerStr c)))) = false →
      check_if_logged_in url content ck = false) := by
  refine ⟨fun h1 => ?_, fun h1 h2 => ?_, fun h1 h2 h3 => ?_,
    fun h1 h2 h3 h4 => ?_, fun h1 h2 h3 h4 h5 h6 => ?_,
    fun h1 h2 h3 h4 h5 => ?_⟩
  · simp [check_if_logged_in, h1]
  · simp [check_if_logged_in, h1, h2]
  · simp [check_if_logged_in, h1, h2, h3]
  · simp [check_if_logged_in, h1, h2, h3, h4]
  · have hlg : containsSub loginTok (lowerStr url) = false :=
      (Bool.or_eq_false_iff.mp h1).1
    have hlg2 : containsSub logDashInTok (lowerStr url) = false :=
      (Bool.or_eq_false_iff.mp h1).2
    simp [check_if_logged_in, h2, h3, h4, h5, h6, hlg, hlg2]
  · simp [check_if_logged_in, h1, h2, h3, h4, h5]

/-- Witness for C2 (amended): the logout rule fires on a non-login-path
page. -/
theorem C2_login_heuristic_order_amended_witness :
    check_if_logged_in urlHome contentLogout [] = true :=
  (C2_login_heuristic_order_amended urlHome contentLogout []).2.1
    (by decide) (by decide)

/-- C9 counterexample: on a snapshot whose URL is a login path but whose
content contains logout text, the pipeline's classifier rejects (the URL
rule fires first) while the background poller accepts (it checks logout
text before the URL rule); the two classifiers are therefore not equal. -/
theorem C9_counterexample :
    check_if_logged_in urlLogin contentLogout [] = false ∧
      check_login_status false contentLogout urlLogin false = true := by
  decide

/-- C9 (amended): the poller's check is a different cascade (logout text,
then login text, then the URL, then the previously stored shared flag; no
account or cookie rules).  The two classifiers do agree on snapshots
whose URL contains no login-path marker and whose content contains one of
the shared English logout indicators: both report authenticated. -/
theorem C9_poller_vs_pipeline_amended (url content : Str) (ck : List Str)
    (flag : Bool)
    (h1 : (containsSub loginTok (lowerStr url)
      || containsSub logDashInTok (lowerStr url)) = false)
    (h2 : sub_logout_indicators.any
      (fun i => containsSub i (lowerStr content)) = true) :
    check_if_logged_in url content ck = true ∧
      check_login_status false content url flag = true := by
  have hsub : ∀ x ∈ sub_logout_indicators, x ∈ logout_indicators := by decide
  obtain ⟨i, hi, hpi⟩ := List.any_eq_true.mp h2
  have h2' : logout_indicators.any
      (fun i => containsSub i (lowerStr content)) = true :=
    List.any_eq_true.mpr ⟨i, hsub i hi, hpi⟩
  constructor
  · simp [check_if_logged_in, h1, h2']
  · simp [check_login_status, h2]

/-- Witness for C9 (amended): both classifiers accept a limra home page
containing logout text. -/
theorem C9_poller_vs_pipeline_amended_witness :
    check_if_logged_in urlHome contentLogout [] = true ∧
      check_login_status false contentLogout urlHome false = true :=
  C9_poller_vs_pipeline_amended urlHome contentLogout [] false
    (by decide) (by decide)

/-- Embedding of the URL-only deduplication of `search_documents`: a
record is kept when its URL has not been seen before. -/
def dedupByUrl (seen : List Str) : List DocR → List DocR
  | [] => []
  | d :: ds =>
    if d.url ∈ seen then dedupByUrl seen ds
    else d :: dedupByUrl (d.url :: seen) ds

/-- Embedding of the joint deduplication of `browse_research_section`:
one `seen` set holds both URLs and titles; a record is kept only when
neither its URL nor its title has been seen, and both are then added. -/
def browseDedupAux (seen : List Str) : List DocR → List DocR
  | [] => []
  | d :: ds =>
    if d.url ∈ seen ∨ d.title ∈ seen then browseDedupAux seen ds
    else d :: browseDedupAux (d.title :: d.url :: seen) ds

/-- Helper: URL-only deduplication keeps, for each URL, exactly the first
record with that URL among those not blocked by the seen set. -/
theorem dedupByUrl_filter (u : Str) :
    ∀ (seen : List Str) (ds : List DocR),
      (dedupByUrl seen ds).filter (fun d => decide (d.url = u))
        = if u ∈ seen then []
          else (ds.filter (fun d => decide (d.url = u))).take 1 := by
  intro seen ds
  induction ds generalizing seen with
  | nil => simp [dedupByUrl]
  | cons d ds ih =>
    by_cases hm : d.url ∈ seen
    · rw [show dedupByUrl seen (d :: ds) = dedupByUrl seen ds from by
        simp [dedupByUrl, hm]]
      rw [ih seen]
      by_cases hu : u ∈ seen
      · simp [hu]
      · have hne : ¬(d.url = u) := fun h => hu (h ▸ hm)
        simp [hu, List.filter, hne]
    · rw [show dedupByUrl seen (d :: ds)
          = d :: dedupByUrl (d.url :: seen) ds from by simp [dedupByUrl, hm]]
      by_cases hu : u ∈ seen
      · have hne : ¬(d.url = u) := fun h => hm (h ▸ hu)
        simp only [List.filter, hne, decide_eq_true_eq, if_neg]
        rw [ih (d.url :: seen)]
        simp [hu, hne, List.filter]
      · by_cases heq : d.url = u
        · subst heq
          simp only [List.filter, decide_True, List.take]
          rw [ih (d.url :: seen)]
          simp [List.filter, hu]
        · simp only [List.filter, heq, decide_eq_true_eq]
          rw [ih (d.url :: seen)]
          have : ¬(u ∈ d.url :: seen) := by
            intro h
            rcases List.mem_cons.mp h with h' | h'
            · exact heq h'.symm
            · exact hu h'
          simp [this, hu, heq, List.filter]

/-- Helper: every record kept by the joint deduplication has a URL and a
title that were not in the seen set it started from. -/
theorem browseDedupAux_mem_not_seen :
    ∀ (seen : List Str) (ds : List DocR) (d' : DocR),
      d' ∈ browseDedupAux seen ds → d'.url ∉ seen ∧ d'.title ∉ seen := by
  intro seen ds
  induction ds generalizing seen with
  | nil => intro d' h; simp [browseDedupAux] at h
  | cons d ds ih =>
    intro d' h
    by_cases hm : d.url ∈ seen ∨ d.title ∈ seen
    · rw [show browseDedupAux seen (d :: ds) = browseDedupAux seen ds from by
        simp [browseDedupAux, hm]] at h
      exact ih seen d' h
    · rw [show browseDedupAux seen (d :: ds)
          = d :: browseDedupAux (d.title :: d.url :: seen) ds from by
        simp [browseDedupAux, hm]] at h
      push_neg at hm
      rcases List.mem_cons.mp h with h' | h'
      · subst h'; exact hm
      · have := ih (d.title :: d.url :: seen) d' h'
        refine ⟨fun hc => this.1 ?_, fun hc => this.2 ?_⟩
        · exact List.mem_cons_of_mem _ (List.mem_cons_of_mem _ hc)
        · exact List.mem_cons_of_mem _ (List.mem_cons_of_mem _ hc)

/-- Helper: the URLs of the joint-deduplication output are pairwise
distinct. -/
theorem browseDedupAux_urls_nodup :
    ∀ (seen : List Str) (ds : List DocR),
      ((browseDedupAux seen ds).map DocR.url).Nodup := by
  intro seen ds
  induction ds generalizing seen with
  | nil => simp [browseDedupAux]
  | cons d ds ih =>
    by_cases hm : d.url ∈ seen ∨ d.title ∈ seen
    · rw [show browseDedupAux seen (d :: ds) = browseDedupAux seen ds from by
        simp [browseDedupAux, hm]]
      exact ih seen
    · rw [show browseDedupAux seen (d :: ds)
          = d :: browseDedupAux (d.title :: d.url :: seen) ds from by
        simp [browseDedupAux, hm]]
      refine List.nodup_cons.mpr ⟨?_, ih (d.title :: d.url :: seen)⟩
      intro hc
      obtain ⟨d', hd', he⟩ := List.mem_map.mp hc
      have := (browseDedupAux_mem_not_seen _ _ _ hd').1
      exact this (he ▸ List.mem_cons_of_mem _ (List.mem_cons_self _ _))

/-- Helper: the titles of the joint-deduplication output are pairwise
distinct. -/
theorem browseDedupAux_titles_nodup :
    ∀ (seen : List Str) (ds : List DocR),
      ((browseDedupAux seen ds).map DocR.title).Nodup := by
  intro seen ds
  induction ds generalizing seen with
  | nil => simp [browseDedupAux]
  | cons d ds ih =>
    by_cases hm : d.url ∈ seen ∨ d.title ∈ seen
    · rw [show browseDedupAux seen (d :: ds) = browseDedupAux seen ds from by
        simp [browseDedupAux, hm]]
      exact ih seen
    · rw [show browseDedupAux seen (d :: ds)
          = d :: browseDedupAux (d.title :: d.url :: seen) ds from by
        simp [browseDedupAux, hm]]
      refine List.nodup_cons.mpr ⟨?_, ih (d.title :: d.url :: seen)⟩
      intro hc
      obtain ⟨d', hd', he⟩ := List.mem_map.mp hc
      have := (browseDedupAux_mem_not_seen _ _ _ hd').2
      exact this (he ▸ List.mem_cons_self _ _)

/-- Record with title AAAAAA and URL u1. -/
def docTA1 : DocR :=
  ⟨"AAAAAA".toList, "https://x/u1".toList, "Article".toList, [], none⟩

/-- Record with title AAAAAA and URL u2. -/
def docTA2 : DocR :=
  ⟨"AAAAAA".toList, "https://x/u2".toList, "Article".toList, [], none⟩

/-- Record with title BBBBBB and URL u2. -/
def docTB2 : DocR :=
  ⟨"BBBBBB".toList, "https://x/u2".toList, "Article".toList, [], none⟩

/-- C6 counterexample: under the joint URL+title deduplication of section
browsing, of the two records sharing URL u2 the output keeps the second
one, not the first (the first is blocked by its repeated title, so its
URL is never added to the seen set). -/
theorem C6_counterexample :
    browseDedupAux [] [docTA1, docTA2, docTB2] = [docTA1, docTB2] ∧
      docTA2.url = docTB2.url ∧ docTA2 ≠ docTB2 := by
  decide

/-- C6 (amended): in the URL-only deduplication of `search_documents`,
for every URL the output keeps exactly the first record with that URL
(output restricted to a URL equals the first element of the input
restricted to it); in section browsing the deduplication is by URL and
title jointly against the already-kept records, so output URLs are
pairwise distinct and output titles are pairwise distinct, but the
record kept for a URL need not be the first of the input with that URL. -/
theorem C6_dedup_amended :
    (∀ (ds : List DocR) (u : Str),
      (dedupByUrl [] ds).filter (fun d => decide (d.url = u))
        = (ds.filter (fun d => decide (d.url = u))).take 1) ∧
    (∀ ds : List DocR,
      ((browseDedupAux [] ds).map DocR.url).Nodup ∧
        ((browseDedupAux [] ds).map DocR.title).Nodup) := by
  constructor
  · intro ds u
    have := dedupByUrl_filter u [] ds
    simpa using this
  · intro ds
    exact ⟨browseDedupAux_urls_nodup [] ds, browseDedupAux_titles_nodup [] ds⟩

/-- Scan for the `://` scheme separator, returning what follows it. -/
def afterScheme : Str → Option Str
  | [] => none
  | ':' :: '/' :: '/' :: rest => some rest
  | _ :: rest => afterScheme rest

/-- Embedding of `urlparse(url).path`: the part after the host, cut at
the query or fragment separator (for scheme-less input, the whole string
up to those separators). -/
def urlPath (url : Str) : Str :=
  match afterScheme url with
  | none => url.takeWhile (fun c => !(c = '?') && !(c = '#'))
  | some rest =>
    (rest.dropWhile (fun c => !(c = '/'))).takeWhile
      (fun c => !(c = '?') && !(c = '#'))

/-- Embedding of `[s for s in urlparse(url).path.split('/') if s]`. -/
def path_segments (url : Str) : List Str :=
  ((urlPath url).splitOn '/').filter (fun s => !s.isEmpty)

example : (path_segments
  "https://www.limra.com/en/research/insurance/market-trends".toList).length
    = 4 := by decide

/-- The lowercase document-extension marker `.pdf`. -/
def pdfTok : Str := ".pdf".toList

/-- The default title used for PDF links with no text. -/
def pdfDocTitle : Str := "PDF Document".toList

/-- Denylist of navigational/non-content URL fragments used by
`browse_research_section` (checked case-sensitively on the full URL). -/
def skip_patterns : List Str :=
  ["?epslanguage=".toList, "/login".toList, "/search".toList, "#".toList,
    "javascript:".toList, "/en/research/?".toList,
    "/en/research/insurance/?".toList, "/en/research/retirement/?".toList,
    "/en/research/annuities/?".toList,
    "/en/research/workplace-benefits/?".toList]

/-- A hyperlink as collected by `browse_research_section`: the raw
`href`, the stripped link text, and the absolute URL obtained by
`urljoin(BASE_URL, href)`. -/
structure LinkE where
  href : Str
  text : Str
  fullUrl : Str
deriving DecidableEq, Repr

/-- Embedding of the per-link classification of
`browse_research_section`: skip empty href/text; always keep links whose
lowercased URL contains `.pdf`; drop denylisted URLs; keep the rest as
article candidates exactly when path depth is at least 3 and text length
at least 15. -/
def classifyLink (l : LinkE) : Option DocR :=
  if l.href.isEmpty || l.text.isEmpty then none
  else if containsSub pdfTok (lowerStr l.fullUrl) then
    some ⟨if l.text.isEmpty then pdfDocTitle else l.text, l.fullUrl,
      "PDF".toList, [], none⟩
  else if skip_patterns.any (fun p => containsSub p l.fullUrl) then none
  else if 3 ≤ (path_segments l.fullUrl).length ∧ 15 ≤ l.text.length then
    some ⟨l.text, l.fullUrl, "Article".toList, [], none⟩
  else none

/-- Records collected by `browse_research_section` over its section
pages, in page order, before deduplication. -/
def browseCollect (pages : List (List LinkE)) : List DocR :=
  (pages.map (fun ls => ls.filterMap classifyLink)).flatten

/-- A direct PDF link with a non-empty text. -/
def linkPdf : LinkE :=
  ⟨"/docs/report.pdf".toList, "Download the report".toList,
    "https://www.limra.com/docs/report.pdf".toList⟩

/-- A qualifying article link: path depth 4, text length 23. -/
def linkArticle : LinkE :=
  ⟨"/en/research/insurance/market-trends-2024".toList,
    "Insurance Market Trends".toList,
    "https://www.limra.com/en/research/insurance/market-trends-2024".toList⟩

/-- A PDF link whose stripped text is empty. -/
def linkPdfNoText : LinkE :=
  ⟨"/docs/r2.pdf".toList, [],
    "https://www.limra.com/docs/r2.pdf".toList⟩

/-- C7 counterexample: a link whose URL contains the document extension
`.pdf` but whose stripped text is empty is skipped by the guard
`if not href or not text`, so it is not "always included as a record". -/
theorem C7_counterexample :
    classifyLink linkPdfNoText = none ∧
      containsSub pdfTok (lowerStr linkPdfNoText.fullUrl) = true := by
  decide

/-- C7 (amended): for links with non-empty href and non-empty stripped
text, a URL containing `.pdf` is always included as a PDF record; a
denylisted URL is excluded; any other link is included exactly when its
path depth is at least 3 and its text length at least 15 (links with
empty href or empty text are always skipped); the fixed 2-page scenario
with one PDF link and one qualifying article link yields exactly 2
records after deduplication. -/
theorem C7_link_classification_amended (l : LinkE)
    (h1 : l.href ≠ []) (h2 : l.text ≠ []) :
    ((containsSub pdfTok (lowerStr l.fullUrl) = true →
      classifyLink l
        = some ⟨l.text, l.fullUrl, "PDF".toList, [], none⟩) ∧
    (containsSub pdfTok (lowerStr l.fullUrl) = false →
      skip_patterns.any (fun p => containsSub p l.fullUrl) = true →
      classifyLink l = none) ∧
    (containsSub pdfTok (lowerStr l.fullUrl) = false →
      skip_patterns.any (fun p => containsSub p l.fullUrl) = false →
      ((classifyLink l).isSome = true ↔
        (3 ≤ (path_segments l.fullUrl).length ∧ 15 ≤ l.text.length)))) ∧
    (browseDedupAux [] (browseCollect [[linkPdf], [linkArticle]])).length
      = 2 := by
  have h1' : l.href.isEmpty = false := by
    cases h : l.href.isEmpty
    · rfl
    · exact absurd (List.isEmpty_iff.mp h) h1
  have h2' : l.text.isEmpty = false := by
    cases h : l.text.isEmpty
    · rfl
    · exact absurd (List.isEmpty_iff.mp h) h2
  refine ⟨⟨fun hpdf => ?_, fun hpdf hskip => ?_, fun hpdf hskip => ?_⟩,
    by decide⟩
  · simp [classifyLink, h1', h2', hpdf]
  · simp [classifyLink, h1', h2', hpdf, hskip]
  · by_cases hq : 3 ≤ (path_segments l.fullUrl).length ∧ 15 ≤ l.text.length
    · simp [classifyLink, h1', h2', hpdf, hskip, hq]
    · simp [classifyLink, h1', h2', hpdf, hskip, hq]

/-- Witness for C7 (amended): the concrete PDF link is included as a PDF
record. -/
theorem C7_link_classification_amended_witness :
    classifyLink linkPdf
      = some ⟨linkPdf.text, linkPdf.fullUrl, "PDF".toList, [], none⟩ :=
  (C7_link_classification_amended linkPdf (by decide) (by decide)).1.1
    (by decide)

/-- ASCII word characters, the `\w` class underlying the `\b` boundary
of the year regex. -/
def isWordChar (c : Char) : Bool := c.isAlphanum || c = '_'

/-- ASCII digit test, the `[0-9]` class of the year regex. -/
def isDigitC (c : Char) : Bool := 48 ≤ c.toNat && c.toNat ≤ 57

/-- Attempt to match the anchored pattern `\b(202[0-9]|201[0-9])\b` at
the head of `s`, with `prev` the character just before the position. -/
def yearMatchAt (prev : Option Char) (s : Str) : Option Int :=
  match s with
  | '2' :: '0' :: d3 :: d4 :: rest =>
    if (d3 = '2' || d3 = '1') && isDigitC d4
        && (match prev with
          | none => true
          | some c => !isWordChar c)
        && (match rest with
          | [] => true
          | c :: _ => !isWordChar c) then
      some (2000 + ((d3.toNat : Int) - 48) * 10 + ((d4.toNat : Int) - 48))
    else none
  | _ => none

/-- Leftmost match of the year pattern in a text. -/
def findYearAux (prev : Option Char) : Str → Option Int
  | [] => none
  | c :: rest =>
    match yearMatchAt prev (c :: rest) with
    | some y => some y
    | none => findYearAux (some c) rest

/-- Embedding of the regex search `/\b(202[0-9]|201[0-9])\b/` used by
`_extract_year_from_page`. -/
def findYearIn (s : Str) : Option Int := findYearAux none s

/-- First text in a list yielding a year match. -/
def firstYear : List Str → Option Int
  | [] => none
  | t :: ts =>
    match findYearIn t with
    | some y => some y
    | none => firstYear ts

/-- The text content the page-evaluate script of
`_extract_year_from_page` can see: texts of date-flavored markup
regions, in selector order, and meta-tag contents. -/
structure PageInfo where
  dateTexts : List Str
  metaContents : List Str
deriving Repr

/-- Embedding of `_extract_year_from_page`: search the date-flavored
regions first, then fall back to meta-tag contents; `null` when no
region matches. -/
def extract_year (p : PageInfo) : Option Int :=
  match firstYear p.dateTexts with
  | some y => some y
  | none => firstYear p.metaContents

/-- Embedding of `_collect_document_dates`: records with a truthy year
are kept as-is; otherwise the record's page (`none` when navigation
fails) is consulted and the extracted year — possibly absent — is
stored. -/
def collect_dates (pages : Str → Option PageInfo) (docs : List DocR) :
    List DocR :=
  docs.map (fun d =>
    if truthyI d.year then d
    else { d with year :=
      (match pages d.url with
        | none => none
        | some p => extract_year p) })

example : findYearIn " 2015 ".toList = some 2015 := by decide

example : findYearIn " 2024 ".toList = some 2024 := by decide

example : findYearIn "x20231".toList = none := by decide

example : findYearIn "2030 2009".toList = none := by decide

/-- Helper: any year matched by the anchored pattern lies in 2010-2029
(the regex alternation is `202[0-9]|201[0-9]`). -/
theorem yearMatchAt_range (prev : Option Char) (s : Str) (y : Int)
    (h : yearMatchAt prev s = some y) : 2010 ≤ y ∧ y ≤ 2029 := by
  unfold yearMatchAt at h
  split at h
  · rename_i d3 d4 rest
    split at h
    · rename_i hcond
      injection h with h'
      simp only [Bool.and_eq_true, Bool.or_eq_true, decide_eq_true_eq]
        at hcond
      obtain ⟨⟨⟨hA, hB⟩, _⟩, _⟩ := hcond
      have hd4 : 48 ≤ d4.toNat ∧ d4.toNat ≤ 57 := by
        unfold isDigitC at hB
        simp only [Bool.and_eq_true, decide_eq_true_eq] at hB
        exact hB
      rcases hA with h2 | h1
      · subst h2
        have h2n : ('2' : Char).toNat = 50 := by decide
        rw [h2n] at h'
        omega
      · subst h1
        have h1n : ('1' : Char).toNat = 49 := by decide
        rw [h1n] at h'
        omega
    · exact absurd h (by simp)
  · exact absurd h (by simp)


/-- Step equation for the leftmost scan. -/
theorem findYearAux_cons (prev : Option Char) (c : Char) (rest : Str) :
    findYearAux prev (c :: rest)
      = match yearMatchAt prev (c :: rest) with
        | some y => some y
        | none => findYearAux (some c) rest := rfl

/-- Step equation for the first-match fold. -/
theorem firstYear_cons (t : Str) (ts : List Str) :
    firstYear (t :: ts)
      = match findYearIn t with
        | some y => some y
        | none => firstYear ts := rfl

/-- Helper: the leftmost-scan search only returns years in 2010-2029. -/
theorem findYearAux_range :
    ∀ (s : Str) (prev : Option Char) (y : Int),
      findYearAux prev s = some y → 2010 ≤ y ∧ y ≤ 2029 := by
  intro s
  induction s with
  | nil => intro prev y h; simp [findYearAux] at h
  | cons c rest ih =>
    intro prev y h
    rw [findYearAux_cons] at h
    split at h
    · rename_i y2 heq
      injection h with h'
      subst h'
      exact yearMatchAt_range prev (c :: rest) y2 heq
    · exact ih (some c) y h

/-- Helper: the first-match fold over a list of texts only returns years
in 2010-2029. -/
theorem firstYear_range :
    ∀ (ts : List Str) (y : Int),
      firstYear ts = some y → 2010 ≤ y ∧ y ≤ 2029 := by
  intro ts
  induction ts with
  | nil => intro y h; simp [firstYear] at h
  | cons t ts ih =>
    intro y h
    rw [firstYear_cons] at h
    split at h
    · rename_i y2 heq
      injection h with h'
      subst h'
      exact findYearAux_range t none y2 heq
    · exact ih y h

/-- A page whose date region shows the year 2015. -/
def page2015 : PageInfo := ⟨[" published 2015 ".toList], []⟩

/-- A page oracle returning the 2015 page for every URL. -/
def pagesConst2015 : Str → Option PageInfo := fun _ => some page2015

/-- A page whose date region shows the year 2023. -/
def page2023 : PageInfo := ⟨["June 2023".toList], []⟩

/-- C10 counterexample: the regex alternation `202[0-9]|201[0-9]` accepts
2010-2029, so a page showing 2015 enriches a year-less record with the
year 2015, outside the claimed 2019-2029 range. -/
theorem C10_counterexample :
    (collect_dates pagesConst2015 [docNoYear]).map DocR.year
        = [some 2015] ∧
      (2015 : Int) < 2019 := by decide

/-- C10 (amended): year enrichment extracts a 4-digit year only within
the range 2010-2029 (the code's regex is `202[0-9]|201[0-9]`, wider than
the claimed 2019-2029), searching date-flavored regions first and meta
contents second; a record whose page yields no such year — or whose page
cannot be visited — keeps an absent year, and no record ever ends up
with year 0. -/
theorem C10_year_extraction_amended :
    (∀ (p : PageInfo) (y : Int),
      extract_year p = some y → 2010 ≤ y ∧ y ≤ 2029) ∧
    (∀ (pages : Str → Option PageInfo) (docs : List DocR) (d' : DocR),
      d' ∈ collect_dates pages docs → d'.year ≠ some 0) := by
  have hex : ∀ (p : PageInfo) (y : Int),
      extract_year p = some y → 2010 ≤ y ∧ y ≤ 2029 := by
    intro p y h
    unfold extract_year at h
    split at h
    · rename_i y2 heq
      injection h with h'
      subst h'
      exact firstYear_range p.dateTexts y2 heq
    · exact firstYear_range p.metaContents y h
  refine ⟨hex, ?_⟩
  intro pages docs d' hd'
  obtain ⟨d, hd, he⟩ := List.mem_map.mp hd'
  by_cases ht : truthyI d.year = true
  · rw [if_pos ht] at he
    subst he
    intro hc
    rw [hc] at ht
    simp [truthyI] at ht
  · rw [if_neg ht] at he
    subst he
    simp only
    cases hp : pages d.url with
    | none => simp [hp]
    | some p =>
      simp only [hp]
      cases hy : extract_year p with
      | none => simp
      | some y =>
        have := hex p y hy
        intro hc
        injection hc with hc'
        omega

/-- Witness for C10 (amended): the extraction bound applied at a page
showing 2023. -/
theorem C10_year_extraction_amended_witness :
    2010 ≤ (2023 : Int) ∧ (2023 : Int) ≤ 2029 :=
  C10_year_extraction_amended.1 page2023 2023 (by decide)

/-- The unsafe filename characters replaced by `re.sub` in
`download_document` and `download_all_results`. -/
def badChars : List Char := ['<', '>', ':', '"', '/', '\\', '|', '?', '*']

/-- Embedding of the sanitizer `re.sub(unsafe, underscore, name)`. -/
def sanitize (s : Str) : Str := s.map (fun c => if c ∈ badChars then '_' else c)

/-- Embedding of `Path.suffix`: the extension from the last dot on, empty
when there is no dot. -/
def suffixOf (s : Str) : Str :=
  let tail := s.reverse.takeWhile (fun c => !(c = '.'))
  if tail.length = s.length then [] else '.' :: tail.reverse

/-- Embedding of `Path.stem`: the name without its extension. -/
def stemOf (s : Str) : Str := s.take (s.length - (suffixOf s).length)

/-- Embedding of `Path.with_suffix`: replace the extension. -/
def withSuffix (s ext : Str) : Str := stemOf s ++ ext

/-- The guard `if filepath.suffix != '.pdf': filepath =
filepath.with_suffix('.pdf')`. -/
def ensurePdf (s : Str) : Str :=
  if suffixOf s = pdfTok then s else withSuffix s pdfTok

/-- Decimal rendering of a counter, as in the f-string of the collision
loop. -/
def natToStr (n : Nat) : Str := (toString n).toList

/-- Embedding of the collision loop of `download_document`: starting
from the original path, while the current name exists append
`_counter` (from 1 upward) before the extension.  The fuel
`names.length + 1` dominates the Python while loop, which terminates on
the finitely many existing names. -/
def resolveCollision (names : List Str) (stem sfx : Str) :
    Nat → Nat → Str → Str
  | 0, _, cur => cur
  | fuel + 1, counter, cur =>
    if cur ∈ names then
      resolveCollision names stem sfx fuel (counter + 1)
        (stem ++ '_' :: natToStr counter ++ sfx)
    else cur

/-- Unfolding equation of the collision loop. -/
theorem resolveCollision_succ (names : List Str) (stem sfx : Str)
    (fuel counter : Nat) (cur : Str) :
    resolveCollision names stem sfx (fuel + 1) counter cur
      = if cur ∈ names then
          resolveCollision names stem sfx fuel (counter + 1)
            (stem ++ '_' :: natToStr counter ++ sfx)
        else cur := rfl

/-- Embedding of `os.path.basename(urlparse(url).path)`. -/
def basenameOf (url : Str) : Str :=
  ((urlPath url).reverse.takeWhile (fun c => !(c = '/'))).reverse

/-- The filename computed when the caller passes none: the sanitized URL
basename, defaulting to `document`. -/
def defaultFilename (url : Str) : Str :=
  let b := basenameOf url
  sanitize (if b.isEmpty then "document".toList else b)

/-- The download folder contents: file names with their byte sizes. -/
abbrev Disk := List (Str × Nat)

/-- Write a file of the given size (overwriting any file of that name). -/
def fsWrite (d : Disk) (n : Str) (s : Nat) : Disk :=
  (n, s) :: d.filter (fun p => !(p.1 = n))

/-- Embedding of `filepath.unlink()`. -/
def fsErase (d : Disk) (n : Str) : Disk := d.filter (fun p => !(p.1 = n))

/-- Environment of one `download_document` invocation: the outcome each
strategy of the cascade would produce.  A transfer is `(optional
extension of the suggested filename, byte size)`; an API response is
`(ok, body length, content-type is PDF, body starts with the PDF
magic)`; `none` models a raised exception or an absent element. -/
structure DlEnv where
  gotoOk : Bool
  hasDlElem : Bool
  clickDl : Option (Option Str × Nat)
  pdfLink : Option Str
  jsDl : Option (Option Str × Nat)
  navDl : Option (Option Str × Nat)
  apiPdf : Option (Bool × Nat × Bool × Bool)
  apiPage : Option (Bool × Nat × Bool × Bool)
  headless : Bool
  pagePdf : Option Nat
deriving Repr

/-- Apply a transfer's suggested extension, when present, to the target
path (`if ext: filepath = filepath.with_suffix(ext)`). -/
def applyExt (fp : Str) : Option Str → Str
  | none => fp
  | some e => withSuffix fp e

/-- Strategy 1 (clickable affordance): the transfer is saved and returned
with no size or type validation. -/
def runClick (t : Option (Option Str × Nat)) (fp : Str) (d : Disk) :
    Option Str × Str × Disk :=
  match t with
  | none => (none, fp, d)
  | some (eo, sz) =>
    let fp2 := applyExt fp eo
    (some fp2, fp2, fsWrite d fp2 sz)

/-- The JS-click and direct-navigation strategies: save the transfer,
return it when non-empty, otherwise delete the empty file and continue. -/
def runMethod (t : Option (Option Str × Nat)) (fp : Str) (d : Disk) :
    Option Str × Str × Disk :=
  match t with
  | none => (none, fp, d)
  | some (eo, sz) =>
    let fp2 := applyExt fp eo
    if 0 < sz then (some fp2, fp2, fsWrite d fp2 sz)
    else (none, fp2, fsErase (fsWrite d fp2 sz) fp2)

/-- The authenticated fetch of the inline PDF URL: write and return only
when the response is ok, longer than 1000 bytes, and PDF-typed by
content type or magic; otherwise continue without writing. -/
def runApiPdf (t : Option (Bool × Nat × Bool × Bool)) (fp : Str)
    (d : Disk) : Option Str × Str × Disk :=
  match t with
  | none => (none, fp, d)
  | some (ok, len, ct, mg) =>
    if ok && decide (1000 < len) && (ct || mg) then
      let fp2 := ensurePdf fp
      (some fp2, fp2, fsWrite d fp2 len)
    else (none, fp, d)

/-- The authenticated fetch of the original page URL: on an ok response
that is a PDF (content type, URL suffix, or magic) and longer than 1000
bytes, write and return; on an ok non-PDF response return absent
immediately; otherwise continue. -/
def runApiPage (t : Option (Bool × Nat × Bool × Bool)) (url fp : Str)
    (d : Disk) : Option (Option Str) × Str × Disk :=
  match t with
  | none => (none, fp, d)
  | some (ok, len, ct, mg) =>
    if ok then
      if (ct || endsWithStr url pdfTok || (decide (4 < len) && mg))
          && decide (1000 < len) then
        let fp2 := ensurePdf fp
        (some (some fp2), fp2, fsWrite d fp2 len)
      else (some none, fp, d)
    else (none, fp, d)


/-- First-success composition of path-tracking strategies. -/
def contOr3 (a : Option Str × Str × Disk)
    (f : Str → Disk → Option Str × Str × Disk) :
    Option Str × Str × Disk :=
  match a with
  | (some r, fp, d) => (some r, fp, d)
  | (none, fp, d) => f fp d

/-- First-success composition finishing the cascade. -/
def contOr (a : Option Str × Str × Disk)
    (f : Str → Disk → Option Str × Disk) : Option Str × Disk :=
  match a with
  | (some r, _, d) => (some r, d)
  | (none, fp, d) => f fp d

/-- The `if pdf_link:` block of `download_document`: JS click, then
direct navigation, then authenticated fetch of the inline URL. -/
def pdfBlock (env : DlEnv) (fp : Str) (d : Disk) :
    Option Str × Str × Disk :=
  if env.pdfLink.isSome then
    contOr3 (runMethod env.jsDl fp d) (fun fp2 d2 =>
      contOr3 (runMethod env.navDl fp2 d2) (fun fp3 d3 =>
        runApiPdf env.apiPdf fp3 d3))
  else (none, fp, d)

/-- The tail of the cascade: authenticated page fetch, then the
headless-only page snapshot, then failure. -/
def tailBlock (env : DlEnv) (url fp : Str) (d : Disk) : Option Str × Disk :=
  match runApiPage env.apiPage url fp d with
  | (some (some r), _, d5) => (some r, d5)
  | (some none, _, d5) => (none, d5)
  | (none, fp5, d5) =>
    if env.headless then
      match env.pagePdf with
      | some n =>
        let fp6 := ensurePdf fp5
        (some fp6, fsWrite d5 fp6 n)
      | none => (none, d5)
    else (none, d5)

/-- The strategy cascade run against a resolved target path. -/
def dd_core (env : DlEnv) (url fp0 : Str) (disk : Disk) :
    Option Str × Disk :=
  contOr
    (if env.hasDlElem then runClick env.clickDl fp0 disk
      else (none, fp0, disk))
    (fun fp1 d1 => contOr (pdfBlock env fp1 d1) (tailBlock env url))

/-- Embedding of `LimraSearchAgent.download_document`: compute the
target filename (defaulting and sanitizing when absent, appending `.pdf`
when extension-less, resolving collisions against the existing disk),
then run the strategy cascade; returns the saved path or `none`, along
with the final disk. -/
def download_document (env : DlEnv) (fname : Option Str) (url : Str)
    (disk : Disk) : Option Str × Disk :=
  let filename0 :=
    match fname with
    | some f => if f.isEmpty then defaultFilename url else f
    | none => defaultFilename url
  let filename1 :=
    if filename0.contains '.' then filename0 else filename0 ++ pdfTok
  let fp0 := resolveCollision (disk.map Prod.fst) (stemOf filename1)
    (suffixOf filename1) (disk.length + 1) 1 filename1
  if !env.gotoOk then (none, disk) else dd_core env url fp0 disk

/-- Embedding of `download_all_results`: per record, build the sanitized
truncated filename, download, and keep the successes. -/
def download_all (items : List (DlEnv × DocR)) (disk : Disk) :
    List (Str × Str × Str) × Disk :=
  match items with
  | [] => ([], disk)
  | (env, r) :: rest =>
    let safe_title := (sanitize r.title).take 100
    let ext := if r.dtype = "PDF".toList then pdfTok else pdfTok
    let filename := safe_title ++ ext
    let res := download_document env (some filename) r.url disk
    let tail := download_all rest res.2
    match res.1 with
    | some fp => ((r.title, r.url, fp) :: tail.1, tail.2)
    | none => tail

/-- Environment whose click strategy succeeds with a 3-byte transfer. -/
def envClickOk : DlEnv :=
  ⟨true, true, some (none, 3), none, none, none, none, none, false, none⟩

/-- Environment whose click strategy completes with a zero-byte transfer. -/
def envClickZero : DlEnv :=
  ⟨true, true, some (none, 0), none, none, none, none, none, false, none⟩

/-- Environment in which every strategy fails or is absent. -/
def envNoStrategies : DlEnv :=
  ⟨true, false, none, none, none, none, none, none, false, none⟩

/-- A simple target filename. -/
def nameDoc : Str := "doc.pdf".toList

example : download_document envClickOk (some nameDoc) urlHome []
    = (some nameDoc, [(nameDoc, 3)]) := by decide

example : download_document envClickZero (some nameDoc) urlHome []
    = (some nameDoc, [(nameDoc, 0)]) := by decide

example : download_document envNoStrategies (some nameDoc) urlHome []
    = (none, []) := by decide

example :
    download_document envClickOk (some nameDoc) urlHome [(nameDoc, 3)]
      = (some "doc_1.pdf".toList, [("doc_1.pdf".toList, 3), (nameDoc, 3)]) := by
  decide

/-- Helper: writing then deleting a name leaves only entries of the
original disk. -/
theorem mem_fsErase_fsWrite {d : Disk} {n : Str} {s : Nat} {p : Str × Nat}
    (h : p ∈ fsErase (fsWrite d n s) n) : p ∈ d := by
  unfold fsErase fsWrite at h
  have h1 := List.mem_filter.mp h
  rcases List.mem_cons.mp h1.1 with he | hm
  · rw [he] at h1
    simp at h1
  · exact (List.mem_filter.mp hm).1

/-- Helper: a continuing click strategy has not touched the disk. -/
theorem runClick_cont {t : Option (Option Str × Nat)} {fp fp' : Str}
    {d d' : Disk} (h : runClick t fp d = (none, fp', d')) : d' = d := by
  cases t with
  | none =>
    simp [runClick] at h
    exact h.2.symm
  | some pair =>
    obtain ⟨eo, sz⟩ := pair
    simp [runClick] at h

/-- Helper: a continuing JS-click/navigation strategy leaves only
entries of the incoming disk. -/
theorem runMethod_cont {t : Option (Option Str × Nat)} {fp fp' : Str}
    {d d' : Disk} (h : runMethod t fp d = (none, fp', d'))
    {p : Str × Nat} (hp : p ∈ d') : p ∈ d := by
  cases t with
  | none =>
    simp [runMethod] at h
    rw [← h.2] at hp
    exact hp
  | some pair =>
    obtain ⟨eo, sz⟩ := pair
    by_cases hsz : 0 < sz
    · simp [runMethod, hsz] at h
    · simp [runMethod, hsz] at h
      rw [← h.2] at hp
      exact mem_fsErase_fsWrite hp

/-- Helper: a continuing inline-URL fetch has not touched the disk. -/
theorem runApiPdf_cont {t : Option (Bool × Nat × Bool × Bool)}
    {fp fp' : Str} {d d' : Disk}
    (h : runApiPdf t fp d = (none, fp', d')) : d' = d := by
  cases t with
  | none =>
    simp [runApiPdf] at h
    exact h.2.symm
  | some q =>
    obtain ⟨ok, len, ct, mg⟩ := q
    by_cases hc : (ok && decide (1000 < len) && (ct || mg)) = true
    · simp [runApiPdf, hc] at h
    · have hc' : (ok && decide (1000 < len) && (ct || mg)) = false := by
        cases hcc : (ok && decide (1000 < len) && (ct || mg))
        · rfl
        · exact absurd hcc hc
      simp [runApiPdf, hc'] at h
      exact h.2.symm

/-- Helper: a page fetch that does not return a saved file has not
touched the disk. -/
theorem runApiPage_no_save {t : Option (Bool × Nat × Bool × Bool)}
    {url fp fp' : Str} {d d' : Disk} {x : Option (Option Str)}
    (h : runApiPage t url fp d = (x, fp', d'))
    (hx : x = some none ∨ x = none) : d' = d := by
  cases t with
  | none =>
    simp [runApiPage] at h
    exact h.2.2.symm
  | some q =>
    obtain ⟨ok, len, ct, mg⟩ := q
    by_cases hok : ok = true
    · by_cases hc : ((ct || endsWithStr url pdfTok || (decide (4 < len) && mg))
          && decide (1000 < len)) = true
      · simp [runApiPage, hok, hc] at h
        rcases hx with hx | hx <;> rw [hx] at h <;> simp at h
      · have hc' : ((ct || endsWithStr url pdfTok
            || (decide (4 < len) && mg)) && decide (1000 < len)) = false := by
          cases hcc : ((ct || endsWithStr url pdfTok
              || (decide (4 < len) && mg)) && decide (1000 < len))
          · rfl
          · exact absurd hcc hc
        simp [runApiPage, hok, hc'] at h
        exact h.2.2.symm
    · have hok' : ok = false := by
        cases ho : ok
        · rfl
        · exact absurd ho hok
      simp [runApiPage, hok'] at h
      exact h.2.2.symm

/-- Helper: when a path-tracking composition fails, both stages failed in
sequence. -/
theorem contOr3_none {a : Option Str × Str × Disk}
    {f : Str → Disk → Option Str × Str × Disk} {fp' : Str} {d' : Disk}
    (h : contOr3 a f = (none, fp', d')) :
    ∃ fp2 d2, a = (none, fp2, d2) ∧ f fp2 d2 = (none, fp', d') := by
  rcases a with ⟨r, fp2, d2⟩
  cases r with
  | some r => simp [contOr3] at h
  | none => exact ⟨fp2, d2, rfl, by rw [← h]; rfl⟩

/-- Helper: when a finishing composition produces an absent result, both
stages failed in sequence. -/
theorem contOr_none {a : Option Str × Str × Disk}
    {f : Str → Disk → Option Str × Disk} {res : Option Str × Disk}
    (h : contOr a f = res) (hres : res.1 = none) :
    ∃ fp d, a = (none, fp, d) ∧ f fp d = res := by
  rcases a with ⟨r, fp, d⟩
  cases r with
  | some r =>
    rw [show contOr (some r, fp, d) f = (some r, d) from rfl] at h
    rw [← h] at hres
    simp at hres
  | none => exact ⟨fp, d, rfl, by rw [← h]; rfl⟩

/-- Helper: a failing pdf-link block leaves only entries of the incoming
disk. -/
theorem pdfBlock_cont {env : DlEnv} {fp fp' : Str} {d d' : Disk}
    (h : pdfBlock env fp d = (none, fp', d'))
    {p : Str × Nat} (hp : p ∈ d') : p ∈ d := by
  unfold pdfBlock at h
  by_cases hpl : env.pdfLink.isSome = true
  · rw [if_pos hpl] at h
    obtain ⟨fp2, d2, e2, h2⟩ := contOr3_none h
    obtain ⟨fp3, d3, e3, h3⟩ := contOr3_none h2
    have hd' : d' = d3 := runApiPdf_cont h3
    have hp3 : p ∈ d3 := hd' ▸ hp
    exact runMethod_cont e2 (runMethod_cont e3 hp3)
  · rw [if_neg hpl] at h
    injection h with h1 h2
    injection h2 with h2a h2b
    rw [← h2b] at hp
    exact hp

/-- Helper: a failing cascade tail leaves only entries of the incoming
disk. -/
theorem tailBlock_none {env : DlEnv} {url fp : Str} {d d' : Disk}
    (h : tailBlock env url fp d = (none, d'))
    {p : Str × Nat} (hp : p ∈ d') : p ∈ d := by
  unfold tailBlock at h
  rcases e : runApiPage env.apiPage url fp d with ⟨x, fp5, d5⟩
  rw [e] at h
  match x with
  | some (some r) => simp at h
  | some none =>
    simp at h
    have hd5 : d5 = d := runApiPage_no_save e (Or.inl rfl)
    rw [← h, hd5] at hp
    exact hp
  | none =>
    have hd5 : d5 = d := runApiPage_no_save e (Or.inr rfl)
    by_cases hh : env.headless = true
    · rw [hh] at h
      cases hpp : env.pagePdf with
      | some n =>
        rw [hpp] at h
        simp at h
      | none =>
        rw [hpp] at h
        simp at h
        rw [← h, hd5] at hp
        exact hp
    · have hh' : env.headless = false := by
        cases hb : env.headless
        · rfl
        · exact absurd hb hh
      rw [hh'] at h
      simp at h
      rw [← h, hd5] at hp
      exact hp

/-- Helper: when the cascade returns an absent result, every file on the
final disk was already on the incoming disk. -/
theorem dd_core_cont (env : DlEnv) (url fp0 : Str) (disk : Disk)
    (h : (dd_core env url fp0 disk).1 = none) :
    ∀ p ∈ (dd_core env url fp0 disk).2, p ∈ disk := by
  intro p hp
  unfold dd_core at h hp
  rcases hr : contOr
      (if env.hasDlElem then runClick env.clickDl fp0 disk
        else (none, fp0, disk))
      (fun fp1 d1 => contOr (pdfBlock env fp1 d1) (tailBlock env url))
    with ⟨ro, dfin⟩
  rw [hr] at h hp
  obtain ⟨fp1, d1, e1, h2⟩ := contOr_none hr h
  have hd1 : d1 = disk := by
    by_cases hde : env.hasDlElem = true
    · rw [if_pos hde] at e1
      exact runClick_cont e1
    · rw [if_neg hde] at e1
      injection e1 with a b
      injection b with b1 b2
      exact b2.symm
  obtain ⟨fp4, d4, e4, h5⟩ := contOr_none h2 h
  have h5' : tailBlock env url fp4 d4 = (none, dfin) := by
    rw [show ro = none from h] at h5
    exact h5
  have hp4 : p ∈ d4 := tailBlock_none h5' hp
  have hp1 : p ∈ d1 := pdfBlock_cont e4 hp4
  rw [hd1] at hp1
  exact hp1

/-- C1 (amended): whenever `download_document` returns an absent result,
no file created by the invocation remains on disk — every entry of the
final disk was already present before the call.  (The validating
strategies delete their zero-byte results before continuing, and the API
strategies validate before writing; the click-affordance strategy,
however, performs no validation and returns its transfer as a success —
see the counterexample.) -/
theorem C1_download_absent_no_leftover (env : DlEnv) (fname : Option Str)
    (url : Str) (disk : Disk)
    (h : (download_document env fname url disk).1 = none) :
    ∀ p ∈ (download_document env fname url disk).2, p ∈ disk := by
  intro p hp
  unfold download_document at h hp
  by_cases hg : env.gotoOk = true
  · simp only [hg, Bool.not_true, Bool.false_eq_true, if_false] at h hp
    exact dd_core_cont env url _ disk h p hp
  · have hg' : env.gotoOk = false := by
      cases hb : env.gotoOk
      · rfl
      · exact absurd hb hg
    simp only [hg', Bool.not_false, if_true] at h hp
    exact hp

/-- A pre-existing disk with one file. -/
def diskPre : Disk := [("x.pdf".toList, 5)]

/-- The pre-existing file of `diskPre`. -/
def fileX : Str × Nat := ("x.pdf".toList, 5)

/-- Witness for C1 (amended): an all-failing cascade over a non-empty
disk leaves exactly the pre-existing file. -/
theorem C1_download_absent_no_leftover_witness : fileX ∈ diskPre :=
  C1_download_absent_no_leftover envNoStrategies (some nameDoc) urlHome
    diskPre (by decide) fileX (by decide)

/-- C1 counterexample: the click-affordance strategy saves its transfer
and returns it with no size validation, so a zero-byte transfer leaves a
zero-byte file on disk and the cascade does not continue — the claim
that every strategy producing a zero-byte result deletes its file before
the cascade continues is false. -/
theorem C1_counterexample :
    (download_document envClickZero (some nameDoc) urlHome []).1
        = some nameDoc ∧
      ¬(∀ p ∈ (download_document envClickZero (some nameDoc) urlHome []).2,
        0 < p.2) := by
  refine ⟨by decide, by decide⟩

/-- Title shared by the two scenario documents; it contains the unsafe
character `:`. -/
def titleRpt : Str := "My Report: 2024".toList

/-- First scenario document. -/
def docRpt1 : DocR :=
  ⟨titleRpt, "https://www.limra.com/en/research/r1".toList, "PDF".toList,
    [], none⟩

/-- Second scenario document: same title, different URL. -/
def docRpt2 : DocR :=
  ⟨titleRpt, "https://www.limra.com/en/research/r2".toList, "PDF".toList,
    [], none⟩

/-- The sanitized filename of the scenario title. -/
def nameRpt : Str := "My Report_ 2024.pdf".toList

/-- The collision-suffixed filename of the second scenario download. -/
def nameRpt1 : Str := "My Report_ 2024_1.pdf".toList

/-- C5: filename collisions are resolved by an incrementing numeric
suffix before the extension (a first collision yields the stem suffixed
`_1`), the unsafe characters are all replaced by underscores, and
downloading two documents whose titles sanitize to the same base name
yields two distinct files, the second suffixed `_1`. -/
theorem C5_collision_and_sanitize (names : List Str) (stem sfx cur : Str)
    (hcur : cur ∈ names)
    (h1 : stem ++ "_1".toList ++ sfx ∉ names) :
    resolveCollision names stem sfx (names.length + 1) 1 cur
        = stem ++ "_1".toList ++ sfx ∧
      (∀ (s : Str), ∀ c ∈ sanitize s, c ∉ badChars) ∧
      download_all [(envClickOk, docRpt1), (envClickOk, docRpt2)] []
        = ([(titleRpt, docRpt1.url, nameRpt),
            (titleRpt, docRpt2.url, nameRpt1)],
          [(nameRpt1, 3), (nameRpt, 3)]) ∧
      nameRpt ≠ nameRpt1 := by
  refine ⟨?_, ?_, by decide, by decide⟩
  · have hone : ('_' :: natToStr 1) = "_1".toList := by decide
    obtain ⟨k, hk⟩ : ∃ k, names.length = k + 1 :=
      ⟨names.length - 1, by
        have := List.length_pos.mpr (List.ne_nil_of_mem hcur)
        omega⟩
    rw [hk]
    rw [resolveCollision_succ, if_pos hcur]
    rw [resolveCollision_succ]
    rw [show stem ++ '_' :: natToStr 1 ++ sfx
        = stem ++ "_1".toList ++ sfx from by rw [hone]]
    rw [if_neg h1]
  · intro s c hc
    unfold sanitize at hc
    obtain ⟨c0, hc0, he⟩ := List.mem_map.mp hc
    by_cases hb : c0 ∈ badChars
    · rw [if_pos hb] at he
      rw [← he]
      decide
    · rw [if_neg hb] at he
      rw [← he]
      exact hb

/-- Witness for C5: the concrete collision of the scenario's first
filename resolves to the `_1`-suffixed name. -/
theorem C5_collision_and_sanitize_witness :
    resolveCollision [nameRpt] "My Report_ 2024".toList pdfTok
        ([nameRpt].length + 1) 1 nameRpt
      = "My Report_ 2024".toList ++ "_1".toList ++ pdfTok :=
  (C5_collision_and_sanitize [nameRpt] ("My Report_ 2024".toList) pdfTok
    nameRpt (by decide) (by decide)).1
